import Mathlib

/-!
# Verification of the customer-service orchestration core

Shallow embedding of the JavaScript source of the repository
(SupportAgent, TicketResolver, EscalationManager, ChatSessionDO,
DatabaseManager) and proofs of the testable properties stated for it.

Strings from the JavaScript side are modelled as Lean `String`/`List Char`;
JavaScript objects whose key set matters are modelled as association lists
with insert-or-overwrite semantics; every fallible external call (AI
generation, tool webhooks) is a parameter of type `Except`.
-/

namespace CS

/-- JavaScript `String.prototype.toLowerCase`, character by character. -/
def jsToLower (s : List Char) : List Char := s.map Char.toLower

/-- `needle` is a prefix of `hay`. -/
def listStartsWith : List Char → List Char → Bool
  | [], _ => true
  | _ :: _, [] => false
  | a :: as, b :: bs => a == b && listStartsWith as bs

/-- JavaScript `hay.includes(needle)`: substring containment. -/
def jsIncludes (needle : List Char) : List Char → Bool
  | [] => needle.isEmpty
  | c :: rest => listStartsWith needle (c :: rest) || jsIncludes needle rest

/-- `query.toLowerCase().includes(keyword.toLowerCase())`, the idiom used by
every keyword check in the source. -/
def includesCI (hay needle : String) : Bool :=
  jsIncludes (jsToLower needle.data) (jsToLower hay.data)

/-- Count of occurrences of a character, i.e. `(s.match(/c/g) || []).length`. -/
def countChar (c : Char) (s : List Char) : Nat := (s.filter (· == c)).length

/-! ## ChatSessionDO (src/src/durable_objects/chatSession.js)

The Durable Object's storage is a record of the three keys it ever touches:
`history`, `metadata`, `lastActivity`.  Messages are modelled with the shape
the orchestrator stores (`role`, `content`, `timestamp`, plus the `id` that
`handleStoreMessage` attaches); the fresh UUID and the current time are
parameters, since they come from `crypto.randomUUID()` / `new Date()`. -/

structure Message where
  role : String
  content : String
  timestamp : String
  id : String := ""
  deriving Repr, DecidableEq

/-- A JavaScript object, as an association list in key-insertion order.
Keys are unique by construction of `objSet`. -/
abbrev Obj (α : Type) : Type := List (String × α)

/-- Key lookup (`o[k]`), `none` for `undefined`. -/
def objGet {α} (o : Obj α) (k : String) : Option α :=
  match o with
  | [] => none
  | (k', v) :: rest => if k' = k then some v else objGet rest k

/-- `o[k] = v`: overwrite in place if the key exists (JS objects keep the
original key position), else append. -/
def objSet {α} (o : Obj α) (k : String) (v : α) : Obj α :=
  match o with
  | [] => [(k, v)]
  | (k', v') :: rest => if k' = k then (k', v) :: rest else (k', v') :: objSet rest k v

/-- `Object.keys(o)`. -/
def objKeys {α} (o : Obj α) : List String := o.map Prod.fst

/-- `{...a, ...b}`: every key of `b` overwrites, other keys of `a` survive. -/
def objMerge {α} (a b : Obj α) : Obj α := b.foldl (fun acc ⟨k, v⟩ => objSet acc k v) a

/-- A JavaScript value, as far as the session metadata needs one: the default
metadata object holds strings, a boolean and a string array. -/
inductive JSVal where
  | str : String → JSVal
  | boolV : Bool → JSVal
  | strList : List String → JSVal
  deriving Repr, DecidableEq

/-- Session metadata as stored under the `metadata` key.  The source reads
and writes it as a free-form object, so we keep it as an association list. -/
structure SessionState where
  history : List Message
  metadata : Option (Obj JSVal)
  lastActivity : Option String
  deriving Repr, DecidableEq

/-- The empty Durable Object storage: `storage.get` misses every key. -/
def SessionState.empty : SessionState := ⟨[], none, none⟩

/-- `ChatSessionDO.handleStoreMessage`: push the message (with a fresh id),
cap the history at 100 by `slice(-100)`, persist, stamp `lastActivity`. -/
def handleStoreMessage (st : SessionState) (m : Message) (freshId now : String) :
    SessionState :=
  let messageWithId := { m with id := freshId }
  let history := st.history ++ [messageWithId]
  let history := if history.length > 100 then history.drop (history.length - 100) else history
  { st with history := history, lastActivity := some now }

/-- `ChatSessionDO.handleGetHistory`: `history.slice(-limit)`.  A negative
start index clamps at 0, and `-0` is `0`, so `limit = 0` returns the whole
array. -/
def handleGetHistory (st : SessionState) (limit : Nat) : List Message :=
  if limit = 0 then st.history else st.history.drop (st.history.length - limit)

/-- `ChatSessionDO.handleUpdateMetadata`: merge the update object over the
existing metadata (or the default object for a fresh session) and stamp
`updated` with the current time.  Only the `metadata` key is written. -/
def handleUpdateMetadata (st : SessionState) (updates : Obj JSVal) (now : String) :
    SessionState :=
  let metadata := st.metadata.getD
    [("created", JSVal.str now), ("userId", JSVal.str "anonymous"),
     ("companyId", JSVal.str ""), ("escalated", JSVal.boolV false),
     ("tags", JSVal.strList [])]
  let updatedMetadata := objSet (objMerge metadata updates) "updated" (JSVal.str now)
  { st with metadata := some updatedMetadata }

/-! ## EscalationManager (src/src/features/escalation.js) -/

/-- The `context` argument of `shouldEscalate`; `{}` has no `sessionHistory`. -/
structure EscalationContext where
  sessionHistory : Option (List Message) := none

def escalationKeywords : List String :=
  ["speak to human", "talk to agent", "speak to agent", "human agent",
   "real person", "customer service", "supervisor", "manager"]

def frustrationKeywords : List String :=
  ["not working", "doesn\x27t work", "wrong", "incorrect", "frustrated", "annoyed"]

/-- `EscalationManager.shouldEscalate`: escalation keyword, length over 200,
three question marks, or three recent frustrated user turns. -/
def shouldEscalate (query : String) (context : EscalationContext) : Bool :=
  let hasEscalationKeyword := escalationKeywords.any fun keyword => includesCI query keyword
  if hasEscalationKeyword then true
  else if query.length > 200 then true
  else if countChar '?' query.data ≥ 3 then true
  else
    match context.sessionHistory with
    | some sessionHistory =>
      let recentMessages := sessionHistory.drop (sessionHistory.length - 6)
      let userMessages := recentMessages.filter fun msg => msg.role == "user"
      let hasFrustration := frustrationKeywords.any fun keyword =>
        userMessages.any fun msg => includesCI msg.content keyword
      hasFrustration && userMessages.length ≥ 3
    | none => false

/-- `EscalationManager.updateEscalationStatus`: merge the update object over
the stored record (`{...record, ...updates}`), or return `null` when the
session was never escalated.  No guard on the record's current status. -/
def updateEscalationStatus (sessions : Obj (Obj JSVal)) (sessionId : String)
    (updates : Obj JSVal) : Option (Obj JSVal) × Obj (Obj JSVal) :=
  match objGet sessions sessionId with
  | none => (none, sessions)
  | some record =>
    let updatedRecord := objMerge record updates
    (some updatedRecord, objSet sessions sessionId updatedRecord)

/-! ## DatabaseManager approval operations (src/unnamed/part_001)

A row of the `approval_requests` table (schema lines 141-160).  The schema
CHECK constraint restricts `status` to four values; the update helper builds
`UPDATE approval_requests SET <fields>, updated_at = CURRENT_TIMESTAMP WHERE
id = ?` from whatever fields the caller supplies, with no guard on the
current status. -/

structure ApprovalRow where
  id : String
  company_id : String
  customer_id : String
  conversation_id : String
  summary : String
  customer_message : String
  conversation_history : String
  proposed_action : String
  priority : String
  urgency : String
  status : String := "pending"
  agent_id : Option String := none
  agent_feedback : Option String := none
  resolved_at : Option String := none
  updated_at : String := ""
  deriving Repr, DecidableEq

/-- The fields the route handlers ever put in the `updates` object of
`updateApprovalRequest` (agentRoutes.js approve/reject/escalate). -/
structure ApprovalUpdates where
  status : Option String := none
  agent_id : Option String := none
  agent_feedback : Option String := none
  resolved_at : Option String := none
  deriving Repr, DecidableEq

def validStatuses : List String := ["pending", "approved", "rejected", "escalated"]

/-- The `SET <field> = ?` assignments of `updateApprovalRequest`, applied to
one row, plus the unconditional `updated_at = CURRENT_TIMESTAMP`. -/
def applyApprovalUpdates (row : ApprovalRow) (updates : ApprovalUpdates)
    (now : String) : ApprovalRow :=
  { row with
    status := updates.status.getD row.status
    agent_id := match updates.agent_id with | some a => some a | none => row.agent_id
    agent_feedback := match updates.agent_feedback with
      | some f => some f | none => row.agent_feedback
    resolved_at := match updates.resolved_at with | some r => some r | none => row.resolved_at
    updated_at := now }

/-- `DatabaseManager.updateApprovalRequest`: overwrite the supplied fields of
the row with the given id and stamp `updated_at`; the schema CHECK rejects a
status outside the four allowed values. -/
def updateApprovalRequest (db : List ApprovalRow) (requestId : String)
    (updates : ApprovalUpdates) (now : String) : Except String (List ApprovalRow) :=
  match updates.status with
  | some s =>
    if validStatuses.contains s then
      .ok (db.map fun row =>
        if row.id = requestId then applyApprovalUpdates row updates now else row)
    else .error "CHECK constraint failed: status"
  | none =>
    .ok (db.map fun row =>
      if row.id = requestId then applyApprovalUpdates row updates now else row)

/-! ## EscalationManager.createApprovalRequest -/

/-- An approval request as seen by the orchestrator call site
(`SupportAgent.processMessage`): it reads `.id` from the returned record. -/
structure ApprovalRequest where
  id : String
  action : String
  userId : String
  sessionId : String
  status : String := "pending"
  deriving Repr, DecidableEq

/-- Modelled from the spec: `EscalationManager.createApprovalRequest` is
invoked by the orchestrator, but its definition is absent from the source
tree — only the call site and the raw database insert helper
(`DatabaseManager.createApprovalRequest`, a plain INSERT) exist.  Spec §4.4:
"`createApprovalRequest` is idempotent per session: if a prior unresolved
request exists for the session, it is returned instead of creating a
duplicate." -/
def createApprovalRequest (store : List ApprovalRequest) (action : String)
    (userId sessionId freshId : String) : ApprovalRequest × List ApprovalRequest :=
  match store.find? (fun r => r.sessionId == sessionId && r.status == "pending") with
  | some r => (r, store)
  | none =>
    let r : ApprovalRequest :=
      { id := freshId, action := action, userId := userId, sessionId := sessionId }
    (r, store ++ [r])

/-! ## TicketResolver (src/src/features/ticketResolver.js)

`analyzeTicket` post-processes the model's free-text answer with four
JavaScript regexes:
  `/category:?\s*([^\n]+)/i`, `/actions:?\s*([^\n]+)/i`,
  `/approval:?\s*(yes|no)/i`, `/confidence:?\s*(\d+)/i`.
We implement exactly these patterns with JavaScript semantics: leftmost
start position wins, the optional `:?` and the greedy `\s*` backtrack, the
capturing `+` groups are greedy, matching is case-insensitive. -/

/-- JavaScript `\s` (also the character class of `String.prototype.trim`):
ASCII whitespace, NBSP, and the Unicode space separators. -/
def isJsWhitespace (c : Char) : Bool :=
  c == ' ' || c == '\t' || c == '\n' || c == '\x0b' || c == '\x0c' || c == '\r' ||
  c.toNat == 0xA0 || c.toNat == 0x1680 ||
  (0x2000 ≤ c.toNat && c.toNat ≤ 0x200A) ||
  c.toNat == 0x2028 || c.toNat == 0x2029 || c.toNat == 0x202F || c.toNat == 0x205F ||
  c.toNat == 0x3000 || c.toNat == 0xFEFF

/-- Consume a literal (given in lowercase) case-insensitively; return the
rest of the input on success. -/
def matchLitCI : List Char → List Char → Option (List Char)
  | [], s => some s
  | _ :: _, [] => none
  | l :: ls, c :: cs => if c.toLower == l then matchLitCI ls cs else none

def countLeadingWs : List Char → Nat
  | [] => 0
  | c :: rest => if isJsWhitespace c then countLeadingWs rest + 1 else 0

/-- Greedy-with-backtracking tail of `\s*`: try consuming `n` whitespace
characters first, retreating one character at a time until the continuation
succeeds. -/
def wsTryFrom {α} (kont : List Char → Option α) (r : List Char) : Nat → Option α
  | 0 => kont r
  | n + 1 =>
    match kont (r.drop (n + 1)) with
    | some x => some x
    | none => wsTryFrom kont r n

/-- `\s*` followed by `kont`, JavaScript greedy semantics. -/
def wsStarThen {α} (kont : List Char → Option α) (r : List Char) : Option α :=
  wsTryFrom kont r (countLeadingWs r)

/-- `:?` followed by `kont`: prefer consuming a colon, backtrack if the rest
of the pattern then fails. -/
def colonOptThen {α} (kont : List Char → Option α) (r : List Char) : Option α :=
  match r with
  | ':' :: rest =>
    match kont rest with
    | some x => some x
    | none => kont r
  | _ => kont r

/-- Capturing `([^\n]+)`: at least one character that is not a newline,
greedy, so the capture is the maximal newline-free run. -/
def nonNlPlus (r : List Char) : Option (List Char) :=
  match r with
  | c :: _ => if c ≠ '\n' then some (r.takeWhile (· ≠ '\n')) else none
  | [] => none

/-- Capturing `(yes|no)` case-insensitively; the capture is the original
slice of the input. -/
def yesNoCapture (r : List Char) : Option (List Char) :=
  match matchLitCI "yes".data r with
  | some _ => some (r.take 3)
  | none =>
    match matchLitCI "no".data r with
    | some _ => some (r.take 2)
    | none => none

/-- Capturing `(\d+)`: maximal run of ASCII digits, at least one. -/
def digitsPlus (r : List Char) : Option (List Char) :=
  let ds := r.takeWhile (·.isDigit)
  if ds.isEmpty then none else some ds

/-- One of the four patterns, anchored at the current position:
literal (case-insensitive), `:?`, `\s*`, then the capturing group. -/
def patternAt {α} (lit : List Char) (kont : List Char → Option α)
    (s : List Char) : Option α :=
  (matchLitCI lit s).bind (colonOptThen (wsStarThen kont))

/-- `String.prototype.match`: try every start position left to right. -/
def scanFor {α} (f : List Char → Option α) : List Char → Option α
  | [] => f []
  | c :: rest =>
    match f (c :: rest) with
    | some x => some x
    | none => scanFor f rest

def categoryMatch (text : List Char) : Option (List Char) :=
  scanFor (patternAt "category".data nonNlPlus) text

def actionsMatch (text : List Char) : Option (List Char) :=
  scanFor (patternAt "actions".data nonNlPlus) text

def approvalMatch (text : List Char) : Option (List Char) :=
  scanFor (patternAt "approval".data yesNoCapture) text

def confidenceMatch (text : List Char) : Option (List Char) :=
  scanFor (patternAt "confidence".data digitsPlus) text

/-- `String.prototype.trim`. -/
def jsTrim (s : List Char) : List Char :=
  ((s.dropWhile isJsWhitespace).reverse.dropWhile isJsWhitespace).reverse

/-- `parseInt` on a capture that is all ASCII digits. -/
def parseDigits (ds : List Char) : Nat :=
  ds.foldl (fun n c => n * 10 + (c.toNat - 48)) 0

structure Ticket where
  id : String
  customerId : String
  description : String
  priority : String := "normal"
  deriving Repr, DecidableEq

structure Analysis where
  ticketId : String
  category : String
  suggestedActions : String
  requiresApproval : Bool
  confidence : Nat
  rawAnalysis : String
  deriving Repr, DecidableEq

/-- `TicketResolver.analyzeTicket`, given the text the generation service
returned for the analysis prompt (an external input): extract the four
fields, defaulting each one that its pattern does not find. -/
def analyzeTicket (ticket : Ticket) (analysisText : String) : Analysis :=
  let s := analysisText.data
  { ticketId := ticket.id
    category := match categoryMatch s with
      | some c => String.mk (jsTrim c)
      | none => "Uncategorized"
    suggestedActions := match actionsMatch s with
      | some a => String.mk (jsTrim a)
      | none => "No specific actions suggested"
    requiresApproval := match approvalMatch s with
      | some a => String.mk (jsToLower a) == "yes"
      | none => true
    confidence := match confidenceMatch s with
      | some d => parseDigits d
      | none => 50
    rawAnalysis := analysisText }

/-- A detected/selected tool invocation: name plus parameter object. -/
structure ToolCall where
  name : String
  parameters : Obj String := []
  deriving Repr, DecidableEq

/-- A value of the aggregated tool-result map: either the value the tool
returned, or the `{ error: ... }` object written for a failure. -/
inductive ToolResult where
  | value : String → ToolResult
  | errorObj : String → ToolResult
  deriving Repr, DecidableEq

/-- Outcome of one `execute` call: a returned value or a thrown exception. -/
inductive ExecOutcome where
  | ret : ToolResult → ExecOutcome
  | thrown : String → ExecOutcome
  deriving Repr, DecidableEq

/-- The tool registry: the JS object built by `registerTools`, mapping tool
name to its `execute` closure. -/
abbrev ToolRegistry : Type := Obj (Obj String → ExecOutcome)

/-- `TicketResolver.determineTools`: category→tool-set lookup over
`Object.entries(toolsMap)` with a `category.includes(key)` test. -/
def toolsMap : List (String × List ToolCall) :=
  [("account", [{ name := "accountLookup" }]),
   ("billing", [{ name := "billingCheck" }]),
   ("technical", [{ name := "technicalDiagnostic" }]),
   ("product", [{ name := "productInfo" }])]

def determineTools (analysis : Analysis) : List ToolCall :=
  let category := jsToLower analysis.category.data
  match toolsMap.find? (fun entry => jsIncludes entry.1.data category) with
  | some entry => entry.2
  | none => []

structure Resolution where
  ticketId : String
  status : String
  message : String
  actions : Option (Obj ToolResult) := none
  approvalId : Option String := none
  fromPastResolution : Bool := false
  deriving Repr, DecidableEq

/-- `TicketResolver.resolveTicket`.  Besides the resolution object we return
the list of tool names actually executed in the loop, in execution order.
`resolutionResponse` stands for the generation-service output for the
resolution prompt; the vector-store write (`storeTicketResolution`) has no
effect on the returned value. -/
def resolveTicket (registry : ToolRegistry) (resolutionResponse : String)
    (ticket : Ticket) (analysis : Analysis) (approved : Bool) :
    Resolution × List String :=
  if analysis.requiresApproval && !approved then
    ({ ticketId := ticket.id, status := "pending_approval",
       message := "Ticket resolution requires approval" }, [])
  else
    let toolsToUse := determineTools analysis
    let step := fun (acc : Obj ToolResult × List String) (tool : ToolCall) =>
      match objGet registry tool.name with
      | none => acc
      | some exec =>
        match exec tool.parameters with
        | .ret v => (objSet acc.1 tool.name v, acc.2 ++ [tool.name])
        | .thrown msg => (objSet acc.1 tool.name (.errorObj msg), acc.2 ++ [tool.name])
    let toolResults := toolsToUse.foldl step ([], [])
    ({ ticketId := ticket.id, status := "resolved", message := resolutionResponse,
       actions := some toolResults.1 }, toolResults.2)

/-! ## SupportAgent (src/src/agent/supportAgent.js, the fixed version)

`env.AI.run` and the per-tool `execute` closures are external effects; each
is a parameter (`Except`-valued for the generation call, `ExecOutcome` for a
tool).  The response-assembly part of `processMessage` (from tool detection
to the returned response object, lines 175-292) is embedded as
`processMessageCore`; the earlier stages — history retrieval, knowledge
retrieval, the FAQ and ticket blocks — only feed it the values
`faqResponse` and `ticketResolution`, which are therefore parameters. -/

structure CompanyConfig where
  id : String
  agentName : String := ""
  companyName : String := ""
  deriving Repr, DecidableEq

structure FAQItem where
  question : String
  answer : String
  deriving Repr, DecidableEq

structure FAQResponse where
  hasRelevantInfo : Bool
  relevantFAQs : List FAQItem
  deriving Repr, DecidableEq

/-- JavaScript `a || b` on strings: the empty string is falsy. -/
def jsOr (s dflt : String) : String := if s = "" then dflt else s

/-- `SupportAgent.detectToolInvocation` (fixed version): keyword-based
detection over the four built-in tool-keyword entries, keeping only tools
present in the registry, with `{ query: message }` as parameters. -/
def toolKeywords : List (String × List String) :=
  [("account_lookup", ["account", "user", "customer", "profile"]),
   ("order_status", ["order", "purchase", "shipping", "delivery"]),
   ("billing", ["bill", "payment", "invoice", "charge"]),
   ("technical_support", ["bug", "error", "not working", "broken"])]

def detectToolInvocation (registry : ToolRegistry) (message : String) : List ToolCall :=
  if (objKeys registry).length = 0 then []
  else
    let messageLower := jsToLower message.data
    toolKeywords.foldl
      (fun detectedTools entry =>
        if (objGet registry entry.1).isSome
            && entry.2.any (fun keyword => jsIncludes keyword.data messageLower) then
          detectedTools ++ [{ name := entry.1, parameters := [("query", message)] }]
        else detectedTools)
      []

/-- Loop body of `SupportAgent.executeTools` (fixed version): skip a tool
absent from the registry, otherwise store its result, turning a throw into
that tool's `{ error: "Failed to execute tool: ...", success: false }`
entry. -/
def executeToolsStep (registry : ToolRegistry) (results : Obj ToolResult)
    (tool : ToolCall) : Obj ToolResult :=
  match objGet registry tool.name with
  | none => results
  | some exec =>
    match exec tool.parameters with
    | .ret v => objSet results tool.name v
    | .thrown msg =>
      objSet results tool.name (.errorObj ("Failed to execute tool: " ++ msg))

/-- `SupportAgent.executeTools` (fixed version). -/
def executeTools (registry : ToolRegistry) (detectedTools : List ToolCall) :
    Obj ToolResult :=
  detectedTools.foldl (executeToolsStep registry) []

/-- The entry `executeTools` records for a registry tool with executor
`exec`: the returned value, or the error object for a throw. -/
def toolEntry (exec : Obj String → ExecOutcome) (params : Obj String) : ToolResult :=
  match exec params with
  | .ret v => v
  | .thrown msg => .errorObj ("Failed to execute tool: " ++ msg)

def greetingKeywords : List String :=
  ["hello", "hi", "hey", "good morning", "good afternoon", "good evening"]

def capabilityKeywords : List String :=
  ["what can you do", "what do you do", "help me", "capabilities"]

/-- `SupportAgent.generateFallbackResponse`: ticket resolution message if
truthy, else first relevant FAQ, else canned greeting / capability / generic
replies. -/
def generateFallbackResponse (cfg : CompanyConfig) (message : String)
    (faqResponse : Option FAQResponse) (ticketResolution : Option Resolution) :
    String :=
  let trMessage : Option String :=
    match ticketResolution with
    | some tr => if tr.message = "" then none else some tr.message
    | none => none
  match trMessage with
  | some m => m
  | none =>
    let faqHit : Option FAQItem :=
      match faqResponse with
      | some f => if f.hasRelevantInfo then f.relevantFAQs.head? else none
      | none => none
    match faqHit with
    | some faq => "Based on our FAQ: " ++ faq.answer
    | none =>
      if greetingKeywords.any (fun keyword => includesCI message keyword) then
        "Hello! I\x27m " ++ jsOr cfg.agentName "your support assistant"
          ++ ". How can I help you today?"
      else if capabilityKeywords.any (fun keyword => includesCI message keyword) then
        "I\x27m here to help you with " ++ jsOr cfg.companyName "our"
          ++ " products and services. I can answer questions, help resolve issues, and provide information about our offerings. What specific assistance do you need?"
      else
        "Thank you for your message. I\x27m here to help! Could you please provide more details about what you need assistance with?"

/-- The successful value of the generation call; `response.response ||
response.text || <apology>` treats a missing field and the empty string
alike. -/
structure AiReply where
  response : Option String := none
  text : Option String := none
  deriving Repr, DecidableEq

/-- `opts[0] || opts[1] || ... || dflt` on optional strings. -/
def firstTruthy : List (Option String) → String → String
  | [], dflt => dflt
  | some s :: rest, dflt => if s = "" then firstTruthy rest dflt else s
  | none :: rest, dflt => firstTruthy rest dflt

structure TicketInfo where
  id : String
  status : String
  approvalId : Option String := none
  deriving Repr, DecidableEq

structure ResponseObject where
  message : String
  sessionId : String
  toolsUsed : List String
  ticket : Option TicketInfo := none
  deriving Repr, DecidableEq

/-- The tool-detection / execution / generation / assembly tail of
`SupportAgent.processMessage` (fixed version, lines 175-292).  The
best-effort session and interaction writes have no effect on the returned
object and are omitted. -/
def processMessageCore (cfg : CompanyConfig) (sessionId message : String)
    (faqResponse : Option FAQResponse) (ticketResolution : Option Resolution)
    (registry : ToolRegistry) (ai : Except String AiReply) : ResponseObject :=
  let detectedTools := detectToolInvocation registry message
  let toolResults : Obj ToolResult :=
    if detectedTools.length > 0 then executeTools registry detectedTools else []
  let aiResponse : String :=
    match ai with
    | .ok r =>
      firstTruthy [r.response, r.text]
        "I apologize, but I encountered an issue generating a response."
    | .error _ => generateFallbackResponse cfg message faqResponse ticketResolution
  { message := aiResponse
    sessionId := sessionId
    toolsUsed := objKeys toolResults
    ticket := ticketResolution.map fun tr =>
      { id := tr.ticketId
        status := tr.status
        approvalId :=
          if tr.status == "pending_approval" && tr.approvalId.getD "" != "" then
            tr.approvalId
          else none } }

/-- The tools actually attempted in a turn: the detected tools that exist in
the registry, in detection order. -/
def attemptedTools (registry : ToolRegistry) (detectedTools : List ToolCall) :
    List String :=
  (detectedTools.filter fun t => (objGet registry t.name).isSome).map (·.name)

/-! ## Auxiliary definitions for the statements -/

/-- The last `n` elements of a list, in order (`slice(-n)` for `n > 0`). -/
def lastN {α} (n : Nat) (l : List α) : List α := l.drop (l.length - n)

/-- A sequence of store-message requests applied to a session, each item a
message with its fresh id and its timestamp. -/
def storeAll (st : SessionState) (items : List (Message × String × String)) :
    SessionState :=
  items.foldl (fun s it => handleStoreMessage s it.1 it.2.1 it.2.2) st

/-- The messages as `handleStoreMessage` persists them: each with its id. -/
def storedMessages (items : List (Message × String × String)) : List Message :=
  items.map fun it => { it.1 with id := it.2.1 }

/-- A two-tool registry whose first tool throws, for concrete instances. -/
def sampleRegistry : ToolRegistry :=
  [("tool_a", fun _ => .thrown "boom"), ("tool_b", fun _ => .ret (.value "ok"))]

/-- A session with stored metadata, for concrete instances. -/
def sampleSessionState : SessionState :=
  ⟨[], some [("created", JSVal.str "t0"), ("userId", JSVal.str "u1")], none⟩

/-- A freshly created approval-request row, for concrete instances. -/
def samplePendingRow : ApprovalRow :=
  { id := "req1", company_id := "c1", customer_id := "u1",
    conversation_id := "s1", summary := "refund request",
    customer_message := "please refund", conversation_history := "[]",
    proposed_action := "issue refund", priority := "high", urgency := "high" }

/-! ## Association-list lemmas -/

theorem objGet_objSet_self {α} (o : Obj α) (k : String) (v : α) :
    objGet (objSet o k v) k = some v := by
  induction o with
  | nil => simp [objSet, objGet]
  | cons p rest ih =>
    obtain ⟨k', v'⟩ := p
    by_cases h : k' = k
    · subst h; simp [objSet, objGet]
    · simp [objSet, objGet, h, ih]

theorem objGet_objSet_ne {α} (o : Obj α) (k m : String) (v : α) (h : k ≠ m) :
    objGet (objSet o k v) m = objGet o m := by
  induction o with
  | nil => simp [objSet, objGet, h]
  | cons p rest ih =>
    obtain ⟨k', v'⟩ := p
    by_cases hk : k' = k
    · subst hk
      simp [objSet, objGet, h]
    · simp [objSet, objGet, hk, ih]

/-! ## C1: the approval gate of `resolveTicket` -/

/-- C1: for every ticket and every analysis with `requiresApproval = true`,
`resolveTicket` with `approved = false` returns a resolution whose status is
`pending_approval`, carries no tool results, and executes zero tools. -/
theorem resolveTicket_approval_gate (registry : ToolRegistry)
    (resolutionResponse : String) (ticket : Ticket) (analysis : Analysis)
    (approved : Bool) (hreq : analysis.requiresApproval = true)
    (happr : approved = false) :
    (resolveTicket registry resolutionResponse ticket analysis approved).1.status
        = "pending_approval" ∧
    (resolveTicket registry resolutionResponse ticket analysis approved).1.actions
        = none ∧
    (resolveTicket registry resolutionResponse ticket analysis approved).2 = [] := by
  subst happr
  simp [resolveTicket, hreq]

theorem resolveTicket_approval_gate_witness :
    (⟨"t1", "Billing", "refund the order", true, 80, "raw"⟩ : Analysis).requiresApproval
        = true ∧
    ((resolveTicket [] "done" ⟨"t1", "cust1", "please refund", "normal"⟩
        ⟨"t1", "Billing", "refund the order", true, 80, "raw"⟩ false).1.status
        = "pending_approval" ∧
      (resolveTicket [] "done" ⟨"t1", "cust1", "please refund", "normal"⟩
        ⟨"t1", "Billing", "refund the order", true, 80, "raw"⟩ false).1.actions
        = none ∧
      (resolveTicket [] "done" ⟨"t1", "cust1", "please refund", "normal"⟩
        ⟨"t1", "Billing", "refund the order", true, 80, "raw"⟩ false).2 = []) :=
  ⟨rfl, resolveTicket_approval_gate _ _ _ _ _ rfl rfl⟩

/-! ## C8: the "speak to a human" phrase -/

/-- C8 counterexample: the phrase `"I want to speak to a human"` contains
none of the eight escalation keywords (the list has `"speak to human"` and
`"human agent"`, neither of which is a substring), it is 26 characters long
and has no question mark, so with empty context `shouldEscalate` returns
`false` — not `true` as claimed. -/
theorem shouldEscalate_human_phrase_is_false :
    shouldEscalate "I want to speak to a human" {} = false := by decide

/-- C8 amended: a query containing one of the escalation keywords
(case-insensitively) always escalates; the claim's phrase contains no
keyword, but e.g. `"I want to speak to a human agent"` (keyword
`"human agent"`) does. -/
theorem shouldEscalate_keyword_query_true (query : String)
    (context : EscalationContext)
    (h : escalationKeywords.any (fun keyword => includesCI query keyword) = true) :
    shouldEscalate query context = true := by
  simp [shouldEscalate, h]

theorem shouldEscalate_keyword_query_true_witness :
    escalationKeywords.any
        (fun keyword => includesCI "I want to speak to a human agent" keyword) = true ∧
    shouldEscalate "I want to speak to a human agent" {} = true :=
  ⟨by decide, shouldEscalate_keyword_query_true _ _ (by decide)⟩

/-! ## C9: "thanks" and the 201-character threshold -/

/-- C9: `shouldEscalate "thanks" {}` is always `false`, and every message of
exactly 201 characters with no escalation keyword, fewer than three question
marks and no session history escalates on the length threshold alone. -/
theorem shouldEscalate_thanks_false_and_201_true :
    shouldEscalate "thanks" {} = false ∧
    ∀ (msg : String) (context : EscalationContext),
      msg.length = 201 →
      escalationKeywords.all (fun keyword => !includesCI msg keyword) = true →
      countChar '?' msg.data < 3 →
      context.sessionHistory = none →
      shouldEscalate msg context = true := by
  refine ⟨by decide, ?_⟩
  intro msg context hlen hkw hq hctx
  have hkw' : escalationKeywords.any (fun keyword => includesCI msg keyword) = false := by
    simp only [List.all_eq_true] at hkw
    simp only [List.any_eq_false]
    intro k hk
    simpa using hkw k hk
  simp [shouldEscalate, hkw', hlen]

set_option maxRecDepth 40000 in
theorem shouldEscalate_thanks_false_and_201_true_witness :
    (String.mk (List.replicate 201 'a')).length = 201 ∧
    escalationKeywords.all
        (fun keyword => !includesCI (String.mk (List.replicate 201 'a')) keyword) = true ∧
    countChar '?' (String.mk (List.replicate 201 'a')).data < 3 ∧
    shouldEscalate (String.mk (List.replicate 201 'a')) {} = true :=
  ⟨by decide, by decide, by decide,
    shouldEscalate_thanks_false_and_201_true.2 _ _ (by decide) (by decide) (by decide) rfl⟩

/-! ## C6: defaulting in `analyzeTicket` -/

/-- C6: `analyzeTicket` extracts each field by its pattern and, field by
field, defaults a missing one — `category` to `"Uncategorized"`,
`suggestedActions` to the canned text, `requiresApproval` to `true`
(fail-safe toward human review), `confidence` to `50`; being a total
function, it raises no exception on any text. -/
theorem analyzeTicket_defaults (ticket : Ticket) (analysisText : String) :
    (categoryMatch analysisText.data = none →
      (analyzeTicket ticket analysisText).category = "Uncategorized") ∧
    (actionsMatch analysisText.data = none →
      (analyzeTicket ticket analysisText).suggestedActions
        = "No specific actions suggested") ∧
    (approvalMatch analysisText.data = none →
      (analyzeTicket ticket analysisText).requiresApproval = true) ∧
    (confidenceMatch analysisText.data = none →
      (analyzeTicket ticket analysisText).confidence = 50) := by
  refine ⟨fun h => ?_, fun h => ?_, fun h => ?_, fun h => ?_⟩ <;>
    simp [analyzeTicket, h]

theorem analyzeTicket_defaults_witness :
    categoryMatch "hello".data = none ∧
    approvalMatch "hello".data = none ∧
    (analyzeTicket ⟨"t1", "cust1", "desc", "normal"⟩ "hello").category
        = "Uncategorized" ∧
    (analyzeTicket ⟨"t1", "cust1", "desc", "normal"⟩ "hello").requiresApproval
        = true ∧
    (analyzeTicket ⟨"t1", "cust1", "desc", "normal"⟩ "hello").confidence = 50 :=
  ⟨by decide, by decide,
    (analyzeTicket_defaults _ _).1 (by decide),
    (analyzeTicket_defaults _ _).2.2.1 (by decide),
    (analyzeTicket_defaults _ _).2.2.2 (by decide)⟩

/-! ## C7: tool isolation in `executeTools` -/

theorem foldl_executeToolsStep_frame (registry : ToolRegistry)
    (ts : List ToolCall) (acc : Obj ToolResult) (m : String)
    (hm : m ∉ ts.map ToolCall.name) :
    objGet (ts.foldl (executeToolsStep registry) acc) m = objGet acc m := by
  induction ts generalizing acc with
  | nil => rfl
  | cons t rest ih =>
    simp only [List.map_cons, List.mem_cons, not_or] at hm
    obtain ⟨hne, hrest⟩ := hm
    simp only [List.foldl_cons]
    rw [ih _ hrest]
    cases hreg : objGet registry t.name with
    | none => simp [executeToolsStep, hreg]
    | some exec =>
      cases hex : exec t.parameters with
      | ret v =>
        simp [executeToolsStep, hreg, hex,
          objGet_objSet_ne acc t.name m v (fun h => hne h.symm)]
      | thrown msg =>
        simp [executeToolsStep, hreg, hex,
          objGet_objSet_ne acc t.name m _ (fun h => hne h.symm)]

theorem foldl_executeToolsStep_mem (registry : ToolRegistry)
    (ts : List ToolCall) (acc : Obj ToolResult)
    (hnodup : (ts.map ToolCall.name).Nodup)
    (u : ToolCall) (hu : u ∈ ts) (exec : Obj String → ExecOutcome)
    (hexec : objGet registry u.name = some exec) :
    objGet (ts.foldl (executeToolsStep registry) acc) u.name
      = some (toolEntry exec u.parameters) := by
  induction ts generalizing acc with
  | nil => cases hu
  | cons t rest ih =>
    simp only [List.map_cons, List.nodup_cons] at hnodup
    obtain ⟨hhead, htail⟩ := hnodup
    simp only [List.foldl_cons]
    rcases List.mem_cons.mp hu with hut | hurest
    · subst hut
      have hframe : u.name ∉ rest.map ToolCall.name := hhead
      rw [foldl_executeToolsStep_frame _ _ _ _ hframe]
      cases hex : exec u.parameters with
      | ret v =>
        simp [executeToolsStep, hexec, hex, toolEntry, objGet_objSet_self]
      | thrown msg =>
        simp [executeToolsStep, hexec, hex, toolEntry, objGet_objSet_self]
    · exact ih _ htail hurest

/-- C7: tool invocations are isolated.  For a list of detected tools with
distinct names, a tool whose executor throws gets exactly the
`{ error: ... }` entry, and every other registry-resident tool's own result
still appears in the aggregated map. -/
theorem executeTools_isolation (registry : ToolRegistry)
    (detectedTools : List ToolCall)
    (hnodup : (detectedTools.map ToolCall.name).Nodup)
    (t : ToolCall) (ht : t ∈ detectedTools) (texec : Obj String → ExecOutcome)
    (htexec : objGet registry t.name = some texec) (msg : String)
    (hthrow : texec t.parameters = .thrown msg) :
    objGet (executeTools registry detectedTools) t.name
      = some (.errorObj ("Failed to execute tool: " ++ msg)) ∧
    ∀ u ∈ detectedTools, ∀ uexec, objGet registry u.name = some uexec →
      objGet (executeTools registry detectedTools) u.name
        = some (toolEntry uexec u.parameters) := by
  constructor
  · have := foldl_executeToolsStep_mem registry detectedTools [] hnodup t ht texec htexec
    rw [executeTools, this, toolEntry, hthrow]
  · intro u hu uexec huexec
    exact foldl_executeToolsStep_mem registry detectedTools [] hnodup u hu uexec huexec

theorem executeTools_isolation_witness :
    objGet sampleRegistry "tool_a" = some (fun _ => .thrown "boom") ∧
    objGet (executeTools sampleRegistry [⟨"tool_a", []⟩, ⟨"tool_b", []⟩]) "tool_a"
      = some (.errorObj ("Failed to execute tool: " ++ "boom")) ∧
    objGet (executeTools sampleRegistry [⟨"tool_a", []⟩, ⟨"tool_b", []⟩]) "tool_b"
      = some (.value "ok") :=
  ⟨rfl,
    (executeTools_isolation sampleRegistry [⟨"tool_a", []⟩, ⟨"tool_b", []⟩]
      (by decide) ⟨"tool_a", []⟩ (by simp) _ rfl "boom" rfl).1,
    by
      have := (executeTools_isolation sampleRegistry [⟨"tool_a", []⟩, ⟨"tool_b", []⟩]
        (by decide) ⟨"tool_a", []⟩ (by simp) _ rfl "boom" rfl).2
        ⟨"tool_b", []⟩ (by simp) (fun _ => .ret (.value "ok")) rfl
      simpa [toolEntry] using this⟩

/-! ## C2: the 100-message history cap -/

theorem lastN_of_length_le {α} (n : Nat) (l : List α) (h : l.length ≤ n) :
    lastN n l = l := by
  have : l.length - n = 0 := by omega
  simp [lastN, this]

theorem lastN_length_le {α} (n : Nat) (l : List α) : (lastN n l).length ≤ n := by
  simp [lastN]
  omega

theorem handleStoreMessage_history (st : SessionState) (m : Message)
    (freshId now : String) :
    (handleStoreMessage st m freshId now).history
      = lastN 100 (st.history ++ [{ m with id := freshId }]) := by
  simp only [handleStoreMessage, lastN]
  split
  · rfl
  · rename_i h
    have h0 : (st.history ++ [{ m with id := freshId }]).length - 100 = 0 := by omega
    rw [h0, List.drop_zero]

theorem lastN_append_lastN {α} (n : Nat) (xs ys : List α) :
    lastN n (lastN n xs ++ ys) = lastN n (xs ++ ys) := by
  simp only [lastN, List.length_append, List.length_drop]
  rw [List.drop_append_eq_append_drop, List.drop_append_eq_append_drop,
    List.drop_drop]
  simp only [List.length_drop]
  congr 1
  · congr 1
    omega
  · congr 1
    omega

set_option maxHeartbeats 2000000 in
theorem storeAll_history (items : List (Message × String × String)) :
    ∀ st : SessionState, st.history.length ≤ 100 →
      (storeAll st items).history = lastN 100 (st.history ++ storedMessages items) := by
  induction items with
  | nil =>
    intro st h
    simp [storeAll, storedMessages, lastN_of_length_le 100 st.history h]
  | cons it rest ih =>
    intro st h
    have hstep := handleStoreMessage_history st it.1 it.2.1 it.2.2
    have hlen : (handleStoreMessage st it.1 it.2.1 it.2.2).history.length ≤ 100 := by
      rw [hstep]; exact lastN_length_le _ _
    have h1 : (storeAll st (it :: rest)).history
        = (storeAll (handleStoreMessage st it.1 it.2.1 it.2.2) rest).history := rfl
    rw [h1, ih _ hlen, hstep, lastN_append_lastN]
    simp [storedMessages, List.append_assoc]

/-- C2: after `N > 100` store-message operations on a fresh session,
requesting the history with limit `N` returns exactly the most recent 100
stored messages, in arrival order (the oldest retained first); the older
entries are dropped, and the result has length exactly 100. -/
theorem history_cap (items : List (Message × String × String))
    (hN : items.length > 100) :
    handleGetHistory (storeAll SessionState.empty items) items.length
      = lastN 100 (storedMessages items) ∧
    (handleGetHistory (storeAll SessionState.empty items) items.length).length
      = 100 := by
  have hh : (storeAll SessionState.empty items).history
      = lastN 100 (storedMessages items) := by
    have := storeAll_history items SessionState.empty (by simp [SessionState.empty])
    simpa [SessionState.empty] using this
  have hstored : (storedMessages items).length = items.length := by
    simp [storedMessages]
  have hlen : (storeAll SessionState.empty items).history.length = 100 := by
    rw [hh]
    simp only [lastN, List.length_drop, hstored]
    omega
  have h0 : items.length ≠ 0 := by omega
  have hres : handleGetHistory (storeAll SessionState.empty items) items.length
      = (storeAll SessionState.empty items).history := by
    unfold handleGetHistory
    rw [if_neg h0, hlen]
    have : (100 : Nat) - items.length = 0 := by omega
    rw [this, List.drop_zero]
  refine ⟨?_, ?_⟩
  · rw [hres, hh]
  · rw [hres, hlen]

set_option maxHeartbeats 2000000 in
theorem history_cap_witness :
    (List.replicate 101 ((⟨"user", "hi", "ts", ""⟩ : Message), "id0", "t0")).length > 100 ∧
    handleGetHistory
        (storeAll SessionState.empty
          (List.replicate 101 ((⟨"user", "hi", "ts", ""⟩ : Message), "id0", "t0")))
        (List.replicate 101 ((⟨"user", "hi", "ts", ""⟩ : Message), "id0", "t0")).length
      = lastN 100 (storedMessages
          (List.replicate 101 ((⟨"user", "hi", "ts", ""⟩ : Message), "id0", "t0"))) :=
  ⟨by simp,
    (history_cap (List.replicate 101 ((⟨"user", "hi", "ts", ""⟩ : Message), "id0", "t0"))
      (by simp)).1⟩

/-! ## C3: approval-request status transitions -/

/-- C3 counterexample: a request already in the terminal state `approved` is
moved to `rejected` by `updateApprovalRequest` — the update overwrites the
status with no guard on the current state, so terminal states are not
immutable. -/
theorem updateApprovalRequest_terminal_not_immutable :
    ({ samplePendingRow with status := "approved" } : ApprovalRow).status = "approved" ∧
    (updateApprovalRequest [{ samplePendingRow with status := "approved" }]
        "req1" { status := some "rejected" } "t2").map (List.map ApprovalRow.status)
      = .ok ["rejected"] ∧
    ("rejected" : String) ≠ "approved" :=
  ⟨rfl, rfl, by decide⟩

/-- C3 amended: the schema CHECK keeps every status inside
`{pending, approved, rejected, escalated}` across any successful update, and
the decision endpoints only ever write `approved`, `rejected` or
`escalated`; but terminal states are not immutable — `updateApprovalRequest`
overwrites the status of a terminal-state row exactly as it does a pending
one. -/
theorem updateApprovalRequest_status_valid (db : List ApprovalRow)
    (requestId : String) (updates : ApprovalUpdates) (now : String)
    (db' : List ApprovalRow)
    (hvalid : ∀ r ∈ db, r.status ∈ validStatuses)
    (hok : updateApprovalRequest db requestId updates now = .ok db') :
    ∀ r ∈ db', r.status ∈ validStatuses := by
  unfold updateApprovalRequest at hok
  cases hs : updates.status with
  | none =>
    rw [hs] at hok
    simp only [Except.ok.injEq] at hok
    subst hok
    intro r hr
    obtain ⟨row, hrow, hmap⟩ := List.mem_map.mp hr
    by_cases hid : row.id = requestId
    · rw [if_pos hid] at hmap
      subst hmap
      simp [applyApprovalUpdates, hs]
      exact hvalid row hrow
    · rw [if_neg hid] at hmap
      subst hmap
      exact hvalid row hrow
  | some s =>
    rw [hs] at hok
    by_cases hc : validStatuses.contains s
    · simp only [hc, if_true, Except.ok.injEq] at hok
      subst hok
      intro r hr
      obtain ⟨row, hrow, hmap⟩ := List.mem_map.mp hr
      by_cases hid : row.id = requestId
      · rw [if_pos hid] at hmap
        subst hmap
        simp only [applyApprovalUpdates, hs, Option.getD_some]
        simpa using hc
      · rw [if_neg hid] at hmap
        subst hmap
        exact hvalid row hrow
    · simp only [hc, if_false] at hok
      cases hok

theorem updateApprovalRequest_status_valid_witness :
    (∀ r ∈ [samplePendingRow], r.status ∈ validStatuses) ∧
    (∀ r ∈ [applyApprovalUpdates samplePendingRow
        { status := some "approved", agent_id := some "a1",
          agent_feedback := some "looks fine", resolved_at := some "t3" } "t3"],
      r.status ∈ validStatuses) :=
  ⟨by decide,
    updateApprovalRequest_status_valid [samplePendingRow] "req1"
      { status := some "approved", agent_id := some "a1",
        agent_feedback := some "looks fine", resolved_at := some "t3" }
      "t3" _ (by decide) rfl⟩

/-! ## C4: idempotent approval creation (spec-modelled) -/

theorem find?_append_of_none {α} (p : α → Bool) (l1 l2 : List α)
    (h : l1.find? p = none) : (l1 ++ l2).find? p = l2.find? p := by
  induction l1 with
  | nil => rfl
  | cons a rest ih =>
    rw [List.find?_cons] at h
    cases hp : p a with
    | true => rw [hp] at h; cases h
    | false =>
      rw [hp] at h
      rw [List.cons_append, List.find?_cons, hp]
      exact ih h

/-- C4: two consecutive `createApprovalRequest` calls for the same session
return the same request (same id) and leave the store unchanged the second
time — no duplicate record is created while the first request is pending. -/
theorem createApprovalRequest_idempotent (store : List ApprovalRequest)
    (action userId sessionId id1 id2 : String) :
    (createApprovalRequest
        (createApprovalRequest store action userId sessionId id1).2
        action userId sessionId id2).1
      = (createApprovalRequest store action userId sessionId id1).1 ∧
    (createApprovalRequest
        (createApprovalRequest store action userId sessionId id1).2
        action userId sessionId id2).2
      = (createApprovalRequest store action userId sessionId id1).2 := by
  cases hfind : store.find?
      (fun r => r.sessionId == sessionId && r.status == "pending") with
  | some r =>
    constructor <;> simp [createApprovalRequest, hfind]
  | none =>
    have hfresh : (store ++
        [({ id := id1, action := action, userId := userId,
            sessionId := sessionId } : ApprovalRequest)]).find?
          (fun r => r.sessionId == sessionId && r.status == "pending")
        = some ({ id := id1, action := action, userId := userId,
                  sessionId := sessionId } : ApprovalRequest) := by
      rw [find?_append_of_none _ _ _ hfind]
      simp [List.find?_cons]
    constructor <;> simp [createApprovalRequest, hfind, hfresh]

/-! ## C5: fallback generation -/

theorem str_append_ne_empty (a b : String) (ha : a ≠ "") : a ++ b ≠ "" := by
  intro h
  apply ha
  have hd := congrArg String.data h
  rw [String.data_append] at hd
  exact String.ext (List.append_eq_nil.mp hd).1

/-- The FAQ / greeting / capability / generic tail of the fallback
generator never returns the empty string. -/
theorem fallbackTail_ne_empty (cfg : CompanyConfig) (message : String)
    (faqHit : Option FAQItem) :
    (match faqHit with
     | some faq => "Based on our FAQ: " ++ faq.answer
     | none =>
       if greetingKeywords.any (fun keyword => includesCI message keyword) then
         "Hello! I\x27m " ++ jsOr cfg.agentName "your support assistant"
           ++ ". How can I help you today?"
       else if capabilityKeywords.any (fun keyword => includesCI message keyword) then
         "I\x27m here to help you with " ++ jsOr cfg.companyName "our"
           ++ " products and services. I can answer questions, help resolve issues, and provide information about our offerings. What specific assistance do you need?"
       else
         "Thank you for your message. I\x27m here to help! Could you please provide more details about what you need assistance with?") ≠ "" := by
  rcases faqHit with _ | faq
  · by_cases hg : greetingKeywords.any (fun keyword => includesCI message keyword)
    · simp only [hg, if_true]
      exact str_append_ne_empty _ _ (str_append_ne_empty _ _ (by decide))
    · by_cases hc : capabilityKeywords.any (fun keyword => includesCI message keyword)
      · simp only [hg, hc, if_true, if_false, Bool.false_eq_true]
        exact str_append_ne_empty _ _ (str_append_ne_empty _ _ (by decide))
      · simp only [hg, hc, if_false, Bool.false_eq_true]
        decide
  · exact str_append_ne_empty _ _ (by decide)

/-- Every branch of the fallback generator returns a non-empty reply: the
ticket-resolution message is only used when truthy, and the FAQ, greeting,
capability and generic branches all start from a non-empty literal. -/
theorem generateFallbackResponse_ne_empty (cfg : CompanyConfig)
    (message : String) (faqResponse : Option FAQResponse)
    (ticketResolution : Option Resolution) :
    generateFallbackResponse cfg message faqResponse ticketResolution ≠ "" := by
  rcases ticketResolution with _ | tr
  · simp only [generateFallbackResponse]
    exact fallbackTail_ne_empty cfg message _
  · by_cases htm : tr.message = ""
    · simp only [generateFallbackResponse]
      rw [if_pos htm]
      exact fallbackTail_ne_empty cfg message _
    · simp only [generateFallbackResponse]
      rw [if_neg htm]
      exact htm

theorem foldl_append_filter {α β} (p : α → Bool) (f : α → β) (l : List α) :
    ∀ acc : List β,
      l.foldl (fun a e => if p e then a ++ [f e] else a) acc
        = acc ++ (l.filter p).map f := by
  induction l with
  | nil => intro acc; simp
  | cons e rest ih =>
    intro acc
    by_cases hp : p e = true
    · rw [List.foldl_cons]
      simp only [if_pos hp]
      rw [ih, List.filter_cons, if_pos hp, List.map_cons, List.append_assoc,
        List.singleton_append]
    · rw [List.foldl_cons]
      simp only [if_neg hp]
      rw [ih, List.filter_cons, if_neg hp]

theorem detectToolInvocation_eq_filter (registry : ToolRegistry) (message : String) :
    detectToolInvocation registry message
      = if (objKeys registry).length = 0 then []
        else (toolKeywords.filter fun entry =>
            (objGet registry entry.1).isSome
              && entry.2.any fun keyword =>
                jsIncludes keyword.data (jsToLower message.data)).map
          fun entry => { name := entry.1, parameters := [("query", message)] } := by
  unfold detectToolInvocation
  split
  · rfl
  · rw [foldl_append_filter]
    rfl

theorem detectToolInvocation_names_nodup (registry : ToolRegistry)
    (message : String) :
    ((detectToolInvocation registry message).map ToolCall.name).Nodup := by
  rw [detectToolInvocation_eq_filter]
  split
  · simp
  · rw [List.map_map]
    have hsub : List.Sublist
        ((toolKeywords.filter fun entry =>
            (objGet registry entry.1).isSome
              && entry.2.any fun keyword =>
                jsIncludes keyword.data (jsToLower message.data)).map
          (ToolCall.name ∘ fun entry =>
            ({ name := entry.1, parameters := [("query", message)] } : ToolCall)))
        (toolKeywords.map (ToolCall.name ∘ fun entry =>
            ({ name := entry.1, parameters := [("query", message)] } : ToolCall))) :=
      List.Sublist.map _ (List.filter_sublist _)
    have hmap : toolKeywords.map (ToolCall.name ∘ fun entry =>
          ({ name := entry.1, parameters := [("query", message)] } : ToolCall))
        = ["account_lookup", "order_status", "billing", "technical_support"] := rfl
    rw [hmap] at hsub
    refine List.Nodup.sublist hsub ?_
    decide

theorem objKeys_objSet_of_notMem {α} (o : Obj α) (k : String) (v : α)
    (h : k ∉ objKeys o) : objKeys (objSet o k v) = objKeys o ++ [k] := by
  induction o with
  | nil => rfl
  | cons p rest ih =>
    obtain ⟨k', v'⟩ := p
    simp only [objKeys, List.map_cons, List.mem_cons, not_or] at h
    obtain ⟨hne, hrest⟩ := h
    have hne' : ¬ k' = k := fun hk => hne (Eq.symm hk)
    have hstep : objSet ((k', v') :: rest) k v = (k', v') :: objSet rest k v := by
      simp [objSet, hne']
    rw [hstep]
    simp only [objKeys, List.map_cons, List.cons_append]
    exact congrArg (List.cons k') (ih hrest)

theorem foldl_executeToolsStep_keys (registry : ToolRegistry)
    (ts : List ToolCall) :
    ∀ acc : Obj ToolResult, (ts.map ToolCall.name).Nodup →
      (∀ n ∈ ts.map ToolCall.name, n ∉ objKeys acc) →
      objKeys (ts.foldl (executeToolsStep registry) acc)
        = objKeys acc ++ attemptedTools registry ts := by
  induction ts with
  | nil => intro acc _ _; simp [attemptedTools]
  | cons t rest ih =>
    intro acc hnodup hacc
    simp only [List.map_cons, List.nodup_cons] at hnodup
    obtain ⟨hhead, htail⟩ := hnodup
    have haccname : t.name ∉ objKeys acc := hacc t.name (by simp)
    have hacctail : ∀ n ∈ rest.map ToolCall.name, n ∉ objKeys acc :=
      fun n hn => hacc n (by simp [hn])
    simp only [List.foldl_cons]
    cases hreg : objGet registry t.name with
    | none =>
      have hstep : executeToolsStep registry acc t = acc := by
        simp [executeToolsStep, hreg]
      rw [hstep, ih acc htail hacctail]
      have hatt : attemptedTools registry (t :: rest)
          = attemptedTools registry rest := by
        simp [attemptedTools, List.filter_cons, hreg]
      rw [hatt]
    | some exec =>
      have hstep : executeToolsStep registry acc t
          = objSet acc t.name (toolEntry exec t.parameters) := by
        cases hex : exec t.parameters with
        | ret v => simp [executeToolsStep, hreg, hex, toolEntry]
        | thrown msg => simp [executeToolsStep, hreg, hex, toolEntry]
      have hkeys : objKeys (objSet acc t.name (toolEntry exec t.parameters))
          = objKeys acc ++ [t.name] := objKeys_objSet_of_notMem _ _ _ haccname
      have hacctail' : ∀ n ∈ rest.map ToolCall.name,
          n ∉ objKeys (objSet acc t.name (toolEntry exec t.parameters)) := by
        intro n hn
        rw [hkeys]
        simp only [List.mem_append, List.mem_singleton, not_or]
        exact ⟨hacctail n hn, fun he => hhead (he ▸ hn)⟩
      rw [hstep, ih _ htail hacctail', hkeys]
      have hatt : attemptedTools registry (t :: rest)
          = t.name :: attemptedTools registry rest := by
        simp [attemptedTools, List.filter_cons, hreg]
      rw [hatt, List.append_assoc]
      rfl

theorem executeTools_keys (registry : ToolRegistry) (ts : List ToolCall)
    (hnodup : (ts.map ToolCall.name).Nodup) :
    objKeys (executeTools registry ts) = attemptedTools registry ts := by
  have := foldl_executeToolsStep_keys registry ts [] hnodup (by simp [objKeys])
  simpa [executeTools, objKeys] using this

/-- C5: when the generation call fails, the orchestrator's response still
carries a non-empty message (the fallback reply) and its `toolsUsed` list is
exactly the names of the tools actually attempted in the turn (the detected
tools present in the registry, in execution order). -/
theorem processMessage_fallback (cfg : CompanyConfig)
    (sessionId message : String) (faqResponse : Option FAQResponse)
    (ticketResolution : Option Resolution) (registry : ToolRegistry)
    (err : String) :
    (processMessageCore cfg sessionId message faqResponse ticketResolution
        registry (.error err)).message ≠ "" ∧
    (processMessageCore cfg sessionId message faqResponse ticketResolution
        registry (.error err)).toolsUsed
      = attemptedTools registry (detectToolInvocation registry message) := by
  constructor
  · show generateFallbackResponse cfg message faqResponse ticketResolution ≠ ""
    exact generateFallbackResponse_ne_empty cfg message faqResponse ticketResolution
  · show objKeys (if (detectToolInvocation registry message).length > 0
        then executeTools registry (detectToolInvocation registry message)
        else []) = _
    by_cases h : (detectToolInvocation registry message).length > 0
    · rw [if_pos h]
      exact executeTools_keys _ _ (detectToolInvocation_names_nodup registry message)
    · rw [if_neg h]
      have h0 : detectToolInvocation registry message = [] :=
        List.length_eq_zero.mp (by omega)
      rw [h0]
      rfl

/-! ## C10: metadata update frame -/

theorem objGet_eq_none_of_notMem {α} (o : Obj α) (k : String)
    (h : k ∉ objKeys o) : objGet o k = none := by
  induction o with
  | nil => rfl
  | cons p rest ih =>
    obtain ⟨k', v'⟩ := p
    simp only [objKeys, List.map_cons, List.mem_cons, not_or] at h
    obtain ⟨hne, hrest⟩ := h
    simp only [objGet, if_neg (fun hk => hne (Eq.symm hk))]
    exact ih hrest

theorem objGet_objMerge_of_none {α} (a b : Obj α) (k : String)
    (h : objGet b k = none) : objGet (objMerge a b) k = objGet a k := by
  induction b generalizing a with
  | nil => rfl
  | cons p rest ih =>
    obtain ⟨k', v'⟩ := p
    by_cases hk : k' = k
    · simp only [objGet, if_pos hk] at h
      cases h
    · simp only [objGet, if_neg hk] at h
      have hm : objMerge a ((k', v') :: rest) = objMerge (objSet a k' v') rest := rfl
      rw [hm, ih _ h, objGet_objSet_ne _ _ _ _ hk]

theorem objGet_objMerge_of_some {α} (a b : Obj α) (k : String) (v : α)
    (hnodup : (objKeys b).Nodup) (h : objGet b k = some v) :
    objGet (objMerge a b) k = some v := by
  induction b generalizing a with
  | nil => cases h
  | cons p rest ih =>
    obtain ⟨k', v'⟩ := p
    simp only [objKeys, List.map_cons, List.nodup_cons] at hnodup
    obtain ⟨hknotin, hrest⟩ := hnodup
    by_cases hk : k' = k
    · subst hk
      simp only [objGet, if_pos rfl] at h
      have hnone : objGet rest k' = none := objGet_eq_none_of_notMem rest k' hknotin
      have hm : objMerge a ((k', v') :: rest) = objMerge (objSet a k' v') rest := rfl
      rw [hm, objGet_objMerge_of_none _ _ _ hnone, objGet_objSet_self]
      exact h
    · simp only [objGet, if_neg hk] at h
      have hm : objMerge a ((k', v') :: rest) = objMerge (objSet a k' v') rest := rfl
      rw [hm]
      exact ih (objSet a k' v') hrest h

/-- C10 counterexample: for the update object `{ updated: "x" }` the named
field `updated` does not take the supplied value `"x"` — the handler stamps
it with the current time `"y"` instead, so "each named field takes the new
value" fails for an update that names `updated`. -/
theorem handleUpdateMetadata_updated_overridden :
    objGet (((handleUpdateMetadata
        ⟨[], some [("created", JSVal.str "t0")], none⟩
        [("updated", JSVal.str "x")] "y").metadata).getD []) "updated"
      = some (JSVal.str "y") ∧
    JSVal.str "y" ≠ JSVal.str "x" :=
  ⟨rfl, by decide⟩

/-- C10 amended: the metadata update is frame-preserving except that
`updated` is always stamped with the current time, overriding any supplied
value: every metadata field not named in the update keeps its prior value,
every named field other than `updated` takes the new value, `updated` is
stamped, and neither the message history nor `lastActivity` changes. -/
theorem handleUpdateMetadata_frame (st : SessionState) (m : Obj JSVal)
    (updates : Obj JSVal) (now : String)
    (hm : st.metadata = some m) (hnodup : (objKeys updates).Nodup) :
    (∀ k, k ≠ "updated" → objGet updates k = none →
      objGet (((handleUpdateMetadata st updates now).metadata).getD []) k
        = objGet m k) ∧
    (∀ k v, k ≠ "updated" → objGet updates k = some v →
      objGet (((handleUpdateMetadata st updates now).metadata).getD []) k
        = some v) ∧
    objGet (((handleUpdateMetadata st updates now).metadata).getD []) "updated"
      = some (JSVal.str now) ∧
    (handleUpdateMetadata st updates now).history = st.history ∧
    (handleUpdateMetadata st updates now).lastActivity = st.lastActivity := by
  have hmeta : (handleUpdateMetadata st updates now).metadata
      = some (objSet (objMerge m updates) "updated" (JSVal.str now)) := by
    simp [handleUpdateMetadata, hm]
  refine ⟨?_, ?_, ?_, ?_, ?_⟩
  · intro k hk hnone
    rw [hmeta]
    simp only [Option.getD_some]
    rw [objGet_objSet_ne _ _ _ _ (fun h => hk (Eq.symm h))]
    exact objGet_objMerge_of_none _ _ _ hnone
  · intro k v hk hsome
    rw [hmeta]
    simp only [Option.getD_some]
    rw [objGet_objSet_ne _ _ _ _ (fun h => hk (Eq.symm h))]
    exact objGet_objMerge_of_some _ _ _ _ hnodup hsome
  · rw [hmeta]
    simp only [Option.getD_some]
    exact objGet_objSet_self _ _ _
  · simp [handleUpdateMetadata]
  · simp [handleUpdateMetadata]

theorem handleUpdateMetadata_frame_witness :
    sampleSessionState.metadata
        = some [("created", JSVal.str "t0"), ("userId", JSVal.str "u1")] ∧
    ((∀ k, k ≠ "updated" → objGet [("companyId", JSVal.str "c9")] k = none →
      objGet (((handleUpdateMetadata sampleSessionState
          [("companyId", JSVal.str "c9")] "t1").metadata).getD []) k
        = objGet [("created", JSVal.str "t0"), ("userId", JSVal.str "u1")] k) ∧
    (∀ k v, k ≠ "updated" → objGet [("companyId", JSVal.str "c9")] k = some v →
      objGet (((handleUpdateMetadata sampleSessionState
          [("companyId", JSVal.str "c9")] "t1").metadata).getD []) k
        = some v) ∧
    objGet (((handleUpdateMetadata sampleSessionState
        [("companyId", JSVal.str "c9")] "t1").metadata).getD []) "updated"
      = some (JSVal.str "t1") ∧
    (handleUpdateMetadata sampleSessionState
        [("companyId", JSVal.str "c9")] "t1").history = sampleSessionState.history ∧
    (handleUpdateMetadata sampleSessionState
        [("companyId", JSVal.str "c9")] "t1").lastActivity
      = sampleSessionState.lastActivity) :=
  ⟨rfl,
    handleUpdateMetadata_frame sampleSessionState
      [("created", JSVal.str "t0"), ("userId", JSVal.str "u1")]
      [("companyId", JSVal.str "c9")] "t1" rfl (by decide)⟩

end CS
